import Mathlib

set_option linter.unusedVariables false

/-!
Verification of the doc-merger pipeline.

Shallow embedding of `src/extract.py` and `src/api_server.py`:
filesystem paths are lists of components (`List String`), archive trees are an
inductive type, every effectful step (download, decode, conversion, file write)
is modelled as explicit data or an explicit parameter, and the control flow of
each Python function is translated branch by branch.
-/

/-- Bool test that string `s` ends with `suf` (Python `str.endswith`). -/
def strEndsWith (s suf : String) : Bool :=
  List.isSuffixOf suf.toList s.toList

/-- Bool test that string `s` starts with `p` (Python `str.startswith`). -/
def strStartsWith (s p : String) : Bool :=
  List.isPrefixOf p.toList s.toList

/-- Python `pathlib.PurePath.suffix` of a basename: the substring from the last
dot onward, provided that dot is neither the first nor the last character;
otherwise the empty string.  (CPython: `i = name.rfind('.'); name[i:] if
0 < i < len(name) - 1 else ''`.) -/
def pySuffix (name : String) : String :=
  let cs := name.toList
  let n := cs.length
  match cs.reverse.findIdx? (fun c => c == '.') with
  | none => ""
  | some j => if 0 < j ∧ j + 1 < n then String.mk (cs.drop (n - 1 - j)) else ""

/-- Python `pathlib.PurePath.stem` of a basename: the basename with `pySuffix`
removed.  `os.path.splitext(name)[0]` agrees with this on the basenames the
pipeline manipulates. -/
def pyStem (name : String) : String :=
  let cs := name.toList
  let n := cs.length
  match cs.reverse.findIdx? (fun c => c == '.') with
  | none => name
  | some j => if 0 < j ∧ j + 1 < n then String.mk (cs.take (n - 1 - j)) else name

/-- Python `str.lower`, restricted to ASCII as the extension strings are. -/
def strToLower (s : String) : String :=
  String.mk (s.toList.map Char.toLower)

/-- Document extensions of `organize_documents` (`doc_extensions`). -/
def doc_extensions : List String := [".pdf", ".doc", ".docx", ".txt", ".rtf", ".odt"]

/-- Image extensions of `organize_documents` (`image_extensions`). -/
def image_extensions : List String :=
  [".jpg", ".jpeg", ".png", ".gif", ".bmp", ".tiff", ".tif", ".webp"]

/-- `all_extensions = doc_extensions | image_extensions` in `organize_documents`. -/
def all_extensions : List String := doc_extensions ++ image_extensions

/-- Archive name suffixes tested by `process_archives_recursive` (line 58)
and dispatched on by `extract_archive`. -/
def archiveSuffixes : List String := [".zip", ".tar", ".tar.gz", ".tgz", ".rar"]

/-- A basename is treated as an archive when it ends with one of the archive
suffixes (`file.endswith(('.zip', '.tar', '.tar.gz', '.tgz', '.rar'))`). -/
def isArchiveName (name : String) : Bool :=
  archiveSuffixes.any (fun s => strEndsWith name s)

/-- `is_macos_system_file(file_path)` from `src/extract.py`.  The path is a
component list; the size is `none` when `os.path.getsize` raises (the code then
also returns `True`).  Priority order exactly as in the source: `__MACOSX`
directory, `._` resource-fork marker, `.DS_Store`, then size below 100 bytes. -/
def is_macos_system_file (parts : List String) (size : Option Nat) : Bool :=
  if parts.contains "__MACOSX" then true
  else if strStartsWith (parts.getLastD "") "._" then true
  else if parts.getLastD "" = ".DS_Store" then true
  else
    match size with
    | none => true
    | some s => decide (s < 100)

/-- Net classification of one filesystem entry, as the pipeline treats it:
system check first (both `organize_documents` and `process_archives_recursive`
skip `is_macos_system_file` entries before doing anything), then archive name
test, then document/image extension test. -/
inductive FileClass where
  | systemArtifact
  | archiveK
  | documentK
  | imageK
  | unsupportedK
deriving DecidableEq, Repr

/-- `classify` is a pure function of the path components and the byte size. -/
def classify (parts : List String) (size : Option Nat) : FileClass :=
  if is_macos_system_file parts size then .systemArtifact
  else if isArchiveName (parts.getLastD "") then .archiveK
  else if doc_extensions.contains (strToLower (pySuffix (parts.getLastD ""))) then .documentK
  else if image_extensions.contains (strToLower (pySuffix (parts.getLastD ""))) then .imageK
  else .unsupportedK

/-- The condition under which `organize_documents` converts a file
(lines 233-246): not a macOS system file, and suffix in `all_extensions`. -/
def treatedAsConvertible (parts : List String) (size : Option Nat) : Bool :=
  !is_macos_system_file parts size &&
    all_extensions.contains (strToLower (pySuffix (parts.getLastD "")))

/-- The condition under which `process_archives_recursive` expands a file as an
archive (lines 58-68), ignoring the processed-set test: archive name suffix and
not a macOS system file. -/
def treatedAsArchive (parts : List String) (size : Option Nat) : Bool :=
  isArchiveName (parts.getLastD "") && !is_macos_system_file parts size

/-- A node of a filesystem tree: a plain file, a directory, or an archive file.
An archive node records the byte size of the archive file and the entry tree
its matching decoder would yield (empty when the archive is corrupt). -/
inductive FsNode where
  | file (name : String) (size : Nat)
  | dir (name : String) (children : List FsNode)
  | arch (name : String) (size : Nat) (contents : List FsNode)

/-- The name of the extraction directory created for an archive in
`process_archives_recursive` (line 76): `<splitext stem>_extracted`. -/
def stemExtracted (name : String) : String :=
  pyStem name ++ "_extracted"

/-- One run of `process_directory` from `process_archives_recursive`, threading
the mutable `processed_archives` set (modelled as a list of paths, a path being
a component list).  For each archive file found under the directory: skip it if
its path is already in the processed set, or it is a macOS system file;
otherwise extract it into the fresh `<stem>_extracted` sibling directory,
record its path, delete the archive file, and recurse into the new directory.
The function is defined by structural recursion on the (finite) tree, which is
exactly the termination argument for the Python recursion on finite archive
trees. -/
def processList (pre : List String) (pr : List (List String)) :
    List FsNode → List FsNode × List (List String)
  | [] => ([], pr)
  | FsNode.file n s :: rest =>
    let rr := processList pre pr rest
    (FsNode.file n s :: rr.1, rr.2)
  | FsNode.dir n cs :: rest =>
    let rc := processList (pre ++ [n]) pr cs
    let rr := processList pre rc.2 rest
    (FsNode.dir n rc.1 :: rr.1, rr.2)
  | FsNode.arch n s cs :: rest =>
    if isArchiveName n = true ∧ (pre ++ [n]) ∉ pr ∧
        is_macos_system_file (pre ++ [n]) (some s) = false then
      let rc := processList (pre ++ [stemExtracted n]) ((pre ++ [n]) :: pr) cs
      let rr := processList pre rc.2 rest
      (FsNode.dir (stemExtracted n) rc.1 :: rr.1, rr.2)
    else
      let rr := processList pre pr rest
      (FsNode.arch n s cs :: rr.1, rr.2)

/-- `process_archives_recursive(directory)`: run the unpacker on the children
of the root directory with an initially empty processed set; returns the
settled tree and the final processed set. -/
def process_archives_recursive (root : List String) (tree : List FsNode) :
    List FsNode × List (List String) :=
  processList root [] tree

/-- The real format of the downloaded/discovered blob: what family of decoder
can actually read it (`notArchive` covers corrupt or non-archive bytes). -/
inductive ArchiveFormat where
  | zipF
  | tarF
  | rarF
  | notArchive
deriving DecidableEq, Repr

/-- An archive file as bytes: its true format and the entry tree a matching
decoder yields. -/
structure ArchiveBlob where
  format : ArchiveFormat
  entries : List FsNode

/-- The decoder family `extract_archive` dispatches to. -/
inductive DecoderKind where
  | zipD
  | tarD
  | rarD
deriving DecidableEq, Repr

/-- Suffix dispatch of `extract_archive` (lines 35-43): `.zip` to the zip
decoder, `.tar`/`.tar.gz`/`.tgz` to the tar decoder, `.rar` to the rar
decoder, anything else to no decoder at all. -/
def decoderFor (name : String) : Option DecoderKind :=
  if strEndsWith name ".zip" then some .zipD
  else if strEndsWith name ".tar" || strEndsWith name ".tar.gz" || strEndsWith name ".tgz" then
    some .tarD
  else if strEndsWith name ".rar" then some .rarD
  else none

/-- Whether a decoder family can read a blob of the given true format. -/
def matchesFormat : DecoderKind → ArchiveFormat → Bool
  | .zipD, .zipF => true
  | .tarD, .tarF => true
  | .rarD, .rarF => true
  | _, _ => false

/-- Running one decoder on a blob: entries on success, an error (the raised
exception) when the decoder cannot read the bytes. -/
def decodeArchive (k : DecoderKind) (b : ArchiveBlob) : Except String (List FsNode) :=
  if matchesFormat k b.format then .ok b.entries else .error "decode failed"

/-- Observable outcome of one `extract_archive` call. -/
structure ExtractResult where
  extracted : List FsNode
  raised : Bool
  loggedError : Bool
  loggedSuccess : Bool

/-- `extract_archive(archive_path, extract_to)` (lines 33-46): dispatch on the
path suffix; when no suffix matches, no decoder runs and the success log line
is still emitted; any decoder exception is caught and logged and the function
returns normally (`raised` is `false` on every path). -/
def extract_archive (path : List String) (blob : ArchiveBlob) : ExtractResult :=
  match decoderFor (path.getLastD "") with
  | none => { extracted := [], raised := false, loggedError := false, loggedSuccess := true }
  | some k =>
    match decodeArchive k blob with
    | .ok es => { extracted := es, raised := false, loggedError := false, loggedSuccess := true }
    | .error _ => { extracted := [], raised := false, loggedError := true, loggedSuccess := false }

/-- `zip_path = os.path.join(temp_dir, "downloaded.zip")` from `main`
(line 321): the download is always saved under the fixed name
`downloaded.zip`. -/
def zip_save_path (temp_dir : List String) : List String :=
  temp_dir ++ ["downloaded.zip"]

/-- A converted artifact in PDF mode, as the merge loop of `organize_documents`
sees it: a readable PDF with its page list, or a file `PdfReader` cannot
open. -/
inductive PdfArtifact where
  | ok (pages : List String)
  | unreadable
deriving DecidableEq, Repr

/-- Result of the PDF aggregation step of `organize_documents`
(lines 262-288): whether `final.pdf` was written, the merged page sequence,
and `merged_count`. -/
structure PdfAggregate where
  outputExists : Bool
  pages : List String
  mergedCount : Nat
deriving DecidableEq, Repr

/-- One iteration of the merge loop (lines 267-279): a readable PDF with at
least one page is appended to the merger, everything else is skipped. -/
def mergeStep (acc : List String × Nat) : PdfArtifact → List String × Nat
  | .ok ps => if 0 < ps.length then (acc.1 ++ ps, acc.2 + 1) else acc
  | .unreadable => acc

/-- Whether one artifact passes the merge validation (readable and at least
one page). -/
def validPdf : PdfArtifact → Bool
  | .ok ps => 0 < ps.length
  | .unreadable => false

/-- The pages one artifact contributes to the merged output. -/
def pdfContribution : PdfArtifact → List String
  | .ok ps => if 0 < ps.length then ps else []
  | .unreadable => []

/-- PDF aggregation of `organize_documents`: nothing is written when the
converted list is empty (line 262); otherwise the merge loop runs over the
converted list in order and `final.pdf` is written (even when zero artifacts
passed validation).  The write itself succeeding is the modelled normal
path; a failing write is caught and logged in the source. -/
def aggregatePdf (converted : List PdfArtifact) : PdfAggregate :=
  if converted.isEmpty then { outputExists := false, pages := [], mergedCount := 0 }
  else
    let p := converted.foldl mergeStep ([], 0)
    { outputExists := true, pages := p.1, mergedCount := p.2 }

/-- A converted artifact in text mode: the basename recorded in the delimiter
line, and the file content (`none` when reading the artifact raises). -/
structure TxtArtifact where
  basename : String
  content : Option String
deriving DecidableEq, Repr

/-- Result of the text aggregation step (lines 290-306): whether `final.txt`
was created, the delimited blocks written, and `combined_count`. -/
structure TxtAggregate where
  outputExists : Bool
  blocks : List (String × String)
  combinedCount : Nat
deriving DecidableEq, Repr

/-- Python `content.strip()` being non-empty: some non-whitespace character. -/
def stripNonempty (s : String) : Bool :=
  s.toList.any (fun c => !c.isWhitespace)

/-- One iteration of the text concatenation loop (lines 295-304). -/
def txtStep (acc : List (String × String) × Nat) (a : TxtArtifact) :
    List (String × String) × Nat :=
  match a.content with
  | none => acc
  | some c => if stripNonempty c then (acc.1 ++ [(a.basename, c)], acc.2 + 1) else acc

/-- Text aggregation of `organize_documents`: `final.txt` is created by the
`open(..., 'w')` as soon as the converted list is non-empty, before any
content validation happens. -/
def aggregateTxt (converted : List TxtArtifact) : TxtAggregate :=
  if converted.isEmpty then { outputExists := false, blocks := [], combinedCount := 0 }
  else
    let p := converted.foldl txtStep ([], 0)
    { outputExists := true, blocks := p.1, combinedCount := p.2 }

/-- The artifact path computed by `convert_to_pdf(file_path, output_dir)`
(lines 115-140), for each extension branch of the source.  `some p` is the
path the produced artifact lives at when the conversion tool succeeds; `none`
is the `ValueError` raised for an unsupported extension.  A source already in
PDF format is returned unchanged (`return file_path`); every other supported
branch writes `output_dir/<stem>.pdf` (the image branch via
`convert_image_to_pdf`, which computes the same path, and the office branches
via `soffice --outdir output_dir`). -/
def convert_to_pdf_output (file_path out_dir : List String) : Option (List String) :=
  let ext := strToLower (pySuffix (file_path.getLastD ""))
  if ext = ".pdf" then some file_path
  else if image_extensions.contains ext then
    some (out_dir ++ [pyStem (file_path.getLastD "") ++ ".pdf"])
  else if [".doc", ".docx"].contains ext then
    some (out_dir ++ [pyStem (file_path.getLastD "") ++ ".pdf"])
  else if [".txt", ".rtf", ".odt"].contains ext then
    some (out_dir ++ [pyStem (file_path.getLastD "") ++ ".pdf"])
  else none

/-- The artifact path computed by `convert_to_text(file_path, output_dir)`
(lines 145-186), same conventions as `convert_to_pdf_output`. -/
def convert_to_text_output (file_path out_dir : List String) : Option (List String) :=
  let ext := strToLower (pySuffix (file_path.getLastD ""))
  if ext = ".txt" then some file_path
  else if image_extensions.contains ext then
    some (out_dir ++ [pyStem (file_path.getLastD "") ++ ".txt"])
  else if [".doc", ".docx"].contains ext then
    some (out_dir ++ [pyStem (file_path.getLastD "") ++ ".txt"])
  else if ext = ".pdf" then
    some (out_dir ++ [pyStem (file_path.getLastD "") ++ ".txt"])
  else none

/-- An overwriting file store: writing at an existing path replaces its
content. -/
def writeStore (store : List (List String × String)) (k : List String) (v : String) :
    List (List String × String) :=
  (k, v) :: store.filter (fun e => !(e.1 == k))

/-- Reading a path from the store. -/
def lookupStore (store : List (List String × String)) (k : List String) : Option String :=
  (store.find? (fun e => e.1 == k)).map (fun e => e.2)

/-- The conversion loop of `organize_documents` in PDF mode at the level of
artifact paths and contents: each source `(path, payload)` is converted in
discovery order; on success the payload is written at the computed artifact
path (overwriting whatever was there) and that path is appended to
`converted_files`; an unsupported source is skipped. -/
def runConversionsPdf (out_dir : List String) (sources : List (List String × String)) :
    List (List String × String) × List (List String) :=
  sources.foldl
    (fun acc s =>
      match convert_to_pdf_output s.1 out_dir with
      | some ap => (writeStore acc.1 ap s.2, acc.2 ++ [ap])
      | none => acc)
    ([], [])

/-- What the aggregation step then reads back for each entry of
`converted_files`, in order. -/
def aggregateReads (r : List (List String × String) × List (List String)) :
    List (Option String) :=
  r.2.map (fun p => lookupStore r.1 p)

/-- Terminal state of one run as the collaborator (`extract_task` in
`src/api_server.py`) observes it: a raised exception that escaped `main`, or a
normal return together with whether the final output file exists. -/
inductive RunOutcome where
  | fatal (msg : String)
  | finished (finalExists : Bool)
deriving DecidableEq, Repr

/-- Status and message stored into the task record by `extract_task`
(lines 59-84 of `src/api_server.py`). -/
def extract_task_status : RunOutcome → String × String
  | .fatal e => ("failed", "Extraction failed: " ++ e)
  | .finished true => ("completed", "Extraction completed successfully")
  | .finished false => ("failed", "Final file not found")

/-- `temp_dir = "temp_downloads"` in `main` (line 314), a fixed name
independent of any task id. -/
def temp_dir_path : List String := ["temp_downloads"]

/-- `extract_dir = os.path.join(temp_dir, "extracted")` (line 315). -/
def extract_dir_path : List String := temp_dir_path ++ ["extracted"]

/-- `output_dir = "extracted_documents"` (line 339), also a fixed name. -/
def output_dir_path : List String := ["extracted_documents"]

/-- `shutil.rmtree(temp_dir)`: remove a directory and everything below it from
the filesystem (a set of directory paths). -/
def rmtree (d : List String) (fs : List (List String)) : List (List String) :=
  fs.filter (fun p => !List.isPrefixOf d p)

/-- Collect the files `os.walk` yields under a prefix, with their sizes.  A
leftover archive file (one the unpacker skipped) is still a plain file on
disk and is walked like any other. -/
def collectFiles (pre : List String) : List FsNode → List (List String × Nat)
  | [] => []
  | FsNode.file n s :: rest => (pre ++ [n], s) :: collectFiles pre rest
  | FsNode.dir n cs :: rest => collectFiles (pre ++ [n]) cs ++ collectFiles pre rest
  | FsNode.arch n s _ :: rest => (pre ++ [n], s) :: collectFiles pre rest

/-- The files `organize_documents` tries to convert, in walk order. -/
def convertibleFiles (files : List (List String × Nat)) : List (List String × Nat) :=
  files.filter (fun f => treatedAsConvertible f.1 (some f.2))

/-- Everything that happens after one run of `main` plus the `extract_task`
wrapper, observable from outside. -/
structure RunResult where
  outcome : RunOutcome
  fsAfter : List (List String)
  cleanupRan : Bool

/-- `main(url, mode)` (lines 310-355) composed with the file-existence test of
`extract_task`.  Parameters model the external world: `download` is the result
of `download_file` (an `Except` because `raise_for_status` raises on an
unreachable source), `conv` abstracts the per-file conversion tools (`none`
when the tool fails for that file, `some a` the produced artifact), and `aggE`
is instantiated with the real aggregation step for the selected mode.

Control flow mirrors the source: the two `os.makedirs` calls, then inside
`try`: download (a raise here propagates), `extract_archive` on the root
archive (never raises), `process_archives_recursive`, `organize_documents`
(conversion loop then aggregation); the `finally` block removes `temp_dir`
unconditionally on both the normal and the exceptional path. -/
def mainRun {α : Type} (aggE : List α → Bool) (conv : List String × Nat → Option α)
    (download : Except String ArchiveBlob) (fs0 : List (List String)) : RunResult :=
  let fs1 := extract_dir_path :: temp_dir_path :: fs0
  match download with
  | .error e =>
    { outcome := .fatal e, fsAfter := rmtree temp_dir_path fs1, cleanupRan := true }
  | .ok blob =>
    let ex := extract_archive (zip_save_path temp_dir_path) blob
    let tree := (processList extract_dir_path [] ex.extracted).1
    let files := collectFiles extract_dir_path tree
    let converted := (convertibleFiles files).filterMap conv
    let fs2 := output_dir_path :: fs1
    { outcome := .finished (aggE converted),
      fsAfter := rmtree temp_dir_path fs2,
      cleanupRan := true }

/-- The directories one run with the given task id actually uses for
acquisition (`temp_dir`), extraction (`extract_dir`) and conversion output
(`output_dir`): `main` receives no task id at all, so all three are fixed
names shared by every run. -/
def run_temp_dir (taskId : String) : List String := temp_dir_path

/-- Extraction directory of the run with the given task id. -/
def run_extract_dir (taskId : String) : List String := extract_dir_path

/-- Output directory `organize_documents` writes into for the given task id. -/
def run_output_dir (taskId : String) : List String := output_dir_path

/-- The task-specific directory `extract_task` moves `extracted_documents` to
after the run finished (line 50 of `src/api_server.py`). -/
def task_final_dir (taskId : String) : List String :=
  ["extracted_documents_" ++ taskId]

theorem getLastD_concat_str (t : List String) (a : String) : (t ++ [a]).getLastD "" = a := by
  induction t with
  | nil => rfl
  | cons x xs ih =>
    cases xs with
    | nil => rfl
    | cons y ys => simpa using ih

theorem processList_nil (pre : List String) (pr : List (List String)) :
    processList pre pr [] = ([], pr) := by
  simp [processList]

theorem processList_nodup_aux :
    ∀ (ts : List FsNode) (pre : List String) (pr : List (List String)),
      pr.Nodup → (processList pre pr ts).2.Nodup ∧ pr.Sublist (processList pre pr ts).2
  | [], pre, pr, h => by
    simp only [processList]
    exact ⟨h, List.Sublist.refl pr⟩
  | FsNode.file n s :: rest, pre, pr, h => by
    simp only [processList]
    exact processList_nodup_aux rest pre pr h
  | FsNode.dir n cs :: rest, pre, pr, h => by
    simp only [processList]
    have h1 := processList_nodup_aux cs (pre ++ [n]) pr h
    have h2 := processList_nodup_aux rest pre (processList (pre ++ [n]) pr cs).2 h1.1
    exact ⟨h2.1, h1.2.trans h2.2⟩
  | FsNode.arch n s cs :: rest, pre, pr, h => by
    simp only [processList]
    split
    · next hc =>
      have hpr : ((pre ++ [n]) :: pr).Nodup := List.nodup_cons.mpr ⟨hc.2.1, h⟩
      have h1 := processList_nodup_aux cs (pre ++ [stemExtracted n]) ((pre ++ [n]) :: pr) hpr
      have h2 := processList_nodup_aux rest pre
        (processList (pre ++ [stemExtracted n]) ((pre ++ [n]) :: pr) cs).2 h1.1
      exact ⟨h2.1, (((List.Sublist.refl pr).cons (pre ++ [n])).trans h1.2).trans h2.2⟩
    · exact processList_nodup_aux rest pre pr h

/-- C3: for every finite archive tree, including trees holding several copies
of one archive under different names, the recursive unpacker terminates
(`processList` is a total function, defined by structural recursion on the
tree, mirroring how each Python recursion step descends into the contents of
one archive of the finite tree) and the processed-set it returns contains no
duplicate path: no archive path is ever expanded twice. -/
theorem process_archives_recursive_no_duplicates (root : List String) (tree : List FsNode) :
    ((process_archives_recursive root tree).2).Nodup :=
  (processList_nodup_aux tree root [] List.nodup_nil).1

theorem is_macos_of_reason (parts : List String) (size : Option Nat)
    (h : (∃ s, size = some s ∧ s < 100) ∨ parts.getLastD "" = ".DS_Store" ∨
      strStartsWith (parts.getLastD "") "._" = true ∨ parts.contains "__MACOSX" = true) :
    is_macos_system_file parts size = true := by
  unfold is_macos_system_file
  split
  · rfl
  · split
    · rfl
    · split
      · rfl
      · next h1 h2 h3 =>
        rcases h with ⟨s, hs, hlt⟩ | h | h | h
        · subst hs
          simpa using hlt
        · exact absurd h h3
        · exact absurd h h2
        · exact absurd h h1

/-- C6: classification is a pure function of the path and the size (it is the
Lean function `classify`), and a file whose size is below 100 bytes, or whose
basename is `.DS_Store` or begins with the macOS resource-fork marker `._`, or
which sits under a `__MACOSX` directory, is classified as a system artifact
and is treated neither as convertible by `organize_documents` nor as an
archive by `process_archives_recursive`, whatever its extension is. -/
theorem system_artifact_filtering (parts : List String) (size : Option Nat)
    (h : (∃ s, size = some s ∧ s < 100) ∨ parts.getLastD "" = ".DS_Store" ∨
      strStartsWith (parts.getLastD "") "._" = true ∨ parts.contains "__MACOSX" = true) :
    classify parts size = FileClass.systemArtifact ∧
      treatedAsConvertible parts size = false ∧
      treatedAsArchive parts size = false := by
  have hm := is_macos_of_reason parts size h
  refine ⟨?_, ?_, ?_⟩
  · simp [classify, hm]
  · simp [treatedAsConvertible, hm]
  · simp [treatedAsArchive, hm]

/-- Witness for C6: a 50-byte file named `b.pdf` is a system artifact and is
neither converted nor expanded, despite its `.pdf` extension. -/
theorem system_artifact_filtering_witness :
    classify ["a", "b.pdf"] (some 50) = FileClass.systemArtifact ∧
      treatedAsConvertible ["a", "b.pdf"] (some 50) = false ∧
      treatedAsArchive ["a", "b.pdf"] (some 50) = false :=
  system_artifact_filtering ["a", "b.pdf"] (some 50) (Or.inl ⟨50, rfl, by decide⟩)

theorem decoderFor_downloaded (t : List String) :
    decoderFor ((zip_save_path t).getLastD "") = some DecoderKind.zipD := by
  rw [zip_save_path, getLastD_concat_str]
  decide

theorem extract_root_mismatch (t : List String) (blob : ArchiveBlob)
    (h : blob.format ≠ ArchiveFormat.zipF) :
    extract_archive (zip_save_path t) blob =
      { extracted := [], raised := false, loggedError := true, loggedSuccess := false } := by
  unfold extract_archive
  rw [decoderFor_downloaded]
  have hm : matchesFormat DecoderKind.zipD blob.format = false := by
    cases hf : blob.format
    · exact absurd hf h
    · rfl
    · rfl
    · rfl
  simp [decodeArchive, hm]

/-- C7: the archive expander fails softly.  For every archive path and blob,
`extract_archive` returns normally (`raised = false`), and whenever the
dispatched decoder raises a decode error the error is caught and logged and
nothing is extracted, so a corrupt nested archive is skipped and never aborts
the run. -/
theorem expander_fails_softly (path : List String) (blob : ArchiveBlob) :
    (extract_archive path blob).raised = false ∧
      (∀ k msg, decoderFor (path.getLastD "") = some k →
        decodeArchive k blob = Except.error msg →
        (extract_archive path blob).loggedError = true ∧
          (extract_archive path blob).extracted = []) := by
  constructor
  · cases hd : decoderFor (path.getLastD "") with
    | none => simp only [extract_archive, hd]
    | some k =>
      cases he : decodeArchive k blob with
      | ok es => simp only [extract_archive, hd, he]
      | error e => simp only [extract_archive, hd, he]
  · intro k msg hk he
    simp only [extract_archive, hk, he]
    exact ⟨trivial, trivial⟩

/-- Witness for C7: a tar blob stored under a `.zip` name makes the zip
decoder raise; the call still returns normally and logs the error. -/
theorem expander_fails_softly_witness :
    (extract_archive ["bad.zip"] ⟨ArchiveFormat.tarF, []⟩).raised = false ∧
      (extract_archive ["bad.zip"] ⟨ArchiveFormat.tarF, []⟩).loggedError = true :=
  ⟨(expander_fails_softly ["bad.zip"] ⟨ArchiveFormat.tarF, []⟩).1,
    ((expander_fails_softly ["bad.zip"] ⟨ArchiveFormat.tarF, []⟩).2 DecoderKind.zipD
      "decode failed" (by decide) rfl).1⟩

/-- C9: the downloaded source archive is always saved under the fixed name
`downloaded.zip`; since `extract_archive` dispatches on the filename suffix,
the root archive is always handed to the zip decoder, so a source that is
really tar-family or rar is never expanded at the root (the zip decoder fails,
nothing is extracted, the error is logged); and on a path whose suffix matches
no supported archive extension the expander extracts nothing and still logs
success. -/
theorem root_zip_dispatch :
    (∀ t : List String, (zip_save_path t).getLastD "" = "downloaded.zip") ∧
      (∀ t : List String, decoderFor ((zip_save_path t).getLastD "") = some DecoderKind.zipD) ∧
      (∀ (t : List String) (blob : ArchiveBlob), blob.format ≠ ArchiveFormat.zipF →
        (extract_archive (zip_save_path t) blob).extracted = [] ∧
          (extract_archive (zip_save_path t) blob).loggedError = true) ∧
      (∀ (p : List String) (blob : ArchiveBlob), decoderFor (p.getLastD "") = none →
        extract_archive p blob =
          { extracted := [], raised := false, loggedError := false, loggedSuccess := true }) := by
  refine ⟨?_, decoderFor_downloaded, ?_, ?_⟩
  · intro t
    rw [zip_save_path, getLastD_concat_str]
  · intro t blob h
    rw [extract_root_mismatch t blob h]
    exact ⟨rfl, rfl⟩
  · intro p blob h
    unfold extract_archive
    rw [h]

/-- Witness for C9: a rar-format source saved as `downloaded.zip` is decoded
with the zip decoder and nothing is extracted at the root; a path with no
archive suffix extracts nothing and logs success. -/
theorem root_zip_dispatch_witness :
    (extract_archive (zip_save_path ["temp_downloads"]) ⟨ArchiveFormat.rarF, []⟩).extracted
        = [] ∧
      (extract_archive (zip_save_path ["temp_downloads"]) ⟨ArchiveFormat.rarF, []⟩).loggedError
        = true ∧
      extract_archive ["notes.bin"] ⟨ArchiveFormat.zipF, []⟩ =
        { extracted := [], raised := false, loggedError := false, loggedSuccess := true } :=
  ⟨(root_zip_dispatch.2.2.1 ["temp_downloads"] ⟨ArchiveFormat.rarF, []⟩ (by decide)).1,
    (root_zip_dispatch.2.2.1 ["temp_downloads"] ⟨ArchiveFormat.rarF, []⟩ (by decide)).2,
    root_zip_dispatch.2.2.2 ["notes.bin"] ⟨ArchiveFormat.zipF, []⟩ (by decide)⟩

/-- Counterexample for C1: one conversion result succeeded but zero artifacts
validate (a readable zero-page PDF; a whitespace-only text artifact), yet the
aggregate output file is still written, and a run whose final file exists is
surfaced as completed, not failed. -/
theorem aggregate_output_without_validation :
    (aggregatePdf [PdfArtifact.ok []]).outputExists = true ∧
      (aggregatePdf [PdfArtifact.ok []]).mergedCount = 0 ∧
      (aggregateTxt [{ basename := "a.txt", content := some " " }]).outputExists = true ∧
      (aggregateTxt [{ basename := "a.txt", content := some " " }]).combinedCount = 0 ∧
      extract_task_status (RunOutcome.finished true) =
        ("completed", "Extraction completed successfully") := by
  decide

/-- C1 as the code has it: an aggregate output file exists if and only if at
least one conversion result succeeded (the converted list is non-empty);
validation only selects which artifacts contribute content.  When zero
conversions succeed, no output file is produced and `extract_task` surfaces
the run as failed with the terminal-empty message; the existence of the file
never depends on any artifact passing validation. -/
theorem aggregate_exists_iff_some_converted :
    (∀ cp : List PdfArtifact, (aggregatePdf cp).outputExists = !cp.isEmpty) ∧
      (∀ ct : List TxtArtifact, (aggregateTxt ct).outputExists = !ct.isEmpty) ∧
      extract_task_status (RunOutcome.finished false) = ("failed", "Final file not found") := by
  refine ⟨?_, ?_, rfl⟩
  · intro cp
    cases cp with
    | nil => rfl
    | cons a t => simp [aggregatePdf]
  · intro ct
    cases ct with
    | nil => rfl
    | cons a t => simp [aggregateTxt]

theorem mergeFold_append (l : List PdfArtifact) :
    ∀ p : List String × Nat,
      l.foldl mergeStep p =
        (p.1 ++ (l.map pdfContribution).flatten, p.2 + l.countP (fun a => validPdf a)) := by
  induction l with
  | nil =>
    intro p
    simp
  | cons a t ih =>
    intro p
    rw [List.foldl_cons, ih]
    cases a with
    | ok ps =>
      by_cases hp : 0 < ps.length
      · refine Prod.ext ?_ ?_
        · simp [mergeStep, pdfContribution, hp]
        · simp [mergeStep, validPdf, hp, List.countP_cons]
          omega
      · refine Prod.ext ?_ ?_
        · simp [mergeStep, pdfContribution, hp]
        · simp [mergeStep, validPdf, hp, List.countP_cons]
    | unreadable =>
      refine Prod.ext ?_ ?_
      · simp [mergeStep, pdfContribution]
      · simp [mergeStep, validPdf, List.countP_cons]

/-- C5: in PDF mode the merged page sequence is the concatenation, in exactly
the order the conversion results were produced (traversal discovery order), of
the pages each validated artifact contributes; in particular, for three valid
single-page PDFs A, B, C produced in that order, `final.pdf` has exactly the
three pages A, B, C in that order. -/
theorem merge_order_preserved :
    (∀ arts : List PdfArtifact,
        (aggregatePdf arts).pages = (arts.map pdfContribution).flatten) ∧
      (∀ a b c : String,
        aggregatePdf [PdfArtifact.ok [a], PdfArtifact.ok [b], PdfArtifact.ok [c]] =
          { outputExists := true, pages := [a, b, c], mergedCount := 3 }) := by
  constructor
  · intro arts
    cases arts with
    | nil => rfl
    | cons x t =>
      simp only [aggregatePdf, List.isEmpty_cons, List.foldl_cons, mergeFold_append]
      cases x with
      | ok ps =>
        by_cases hp : 0 < ps.length <;> simp [mergeStep, pdfContribution, hp]
      | unreadable => simp [mergeStep, pdfContribution]
  · intro a b c
    simp [aggregatePdf, mergeStep]

theorem mainRun_root_mismatch {α : Type} (aggE : List α → Bool)
    (conv : List String × Nat → Option α) (blob : ArchiveBlob) (fs0 : List (List String))
    (h : blob.format ≠ ArchiveFormat.zipF) :
    mainRun aggE conv (Except.ok blob) fs0 =
      { outcome := .finished (aggE []),
        fsAfter :=
          rmtree temp_dir_path (output_dir_path :: extract_dir_path :: temp_dir_path :: fs0),
        cleanupRan := true } := by
  simp only [mainRun, extract_root_mismatch temp_dir_path blob h, processList_nil,
    collectFiles, convertibleFiles, List.filter_nil, List.filterMap_nil]

/-- Counterexample for C2: a corrupt (non-zip) root archive makes the zip
decoder fail, but `extract_archive` swallows the error, so the run does not
abort: `main` returns normally, nothing is extracted or converted, no final
file exists, and the collaborator receives the terminal-empty message
`Final file not found` instead of a failure carrying the fatal error. -/
theorem root_extraction_failure_not_fatal :
    (mainRun (fun l : List PdfArtifact => (aggregatePdf l).outputExists)
        (fun f => none) (Except.ok ⟨ArchiveFormat.notArchive, []⟩) []).outcome =
      RunOutcome.finished false ∧
      extract_task_status (RunOutcome.finished false) =
        ("failed", "Final file not found") := by
  rw [mainRun_root_mismatch _ _ _ _ (by decide)]
  exact ⟨rfl, rfl⟩

/-- C2 as the code has it: a failure while expanding the root archive is NOT
fatal.  The decode error is caught inside the expander, the run continues
with an empty extraction tree, converts nothing, produces no output file in
either mode, still executes cleanup, and the collaborator receives the
terminal-empty message `Final file not found` — not a message carrying the
root extraction error.  (A download failure, by contrast, does propagate as
`RunOutcome.fatal`.) -/
theorem root_extract_failure_soft (blob : ArchiveBlob)
    (convP : List String × Nat → Option PdfArtifact)
    (convT : List String × Nat → Option TxtArtifact)
    (fs0 : List (List String)) (h : blob.format ≠ ArchiveFormat.zipF) :
    (mainRun (fun l => (aggregatePdf l).outputExists) convP (Except.ok blob) fs0).outcome =
        RunOutcome.finished false ∧
      (mainRun (fun l => (aggregateTxt l).outputExists) convT (Except.ok blob) fs0).outcome =
        RunOutcome.finished false ∧
      (mainRun (fun l => (aggregatePdf l).outputExists) convP (Except.ok blob) fs0).cleanupRan =
        true ∧
      extract_task_status (RunOutcome.finished false) = ("failed", "Final file not found") := by
  rw [mainRun_root_mismatch _ _ _ _ h, mainRun_root_mismatch _ _ _ _ h]
  exact ⟨rfl, rfl, rfl, rfl⟩

/-- Witness for C2 (amended): a tar-format blob at the root, with conversion
tools that always succeed on paper, still ends in the terminal-empty failure. -/
theorem root_extract_failure_soft_witness :
    (mainRun (fun l => (aggregatePdf l).outputExists) (fun f => some (PdfArtifact.ok ["p"]))
        (Except.ok ⟨ArchiveFormat.tarF, []⟩) []).outcome = RunOutcome.finished false ∧
      extract_task_status (RunOutcome.finished false) = ("failed", "Final file not found") :=
  ⟨(root_extract_failure_soft ⟨ArchiveFormat.tarF, []⟩ (fun f => some (PdfArtifact.ok ["p"]))
      (fun f => none) [] (by decide)).1,
    (root_extract_failure_soft ⟨ArchiveFormat.tarF, []⟩ (fun f => some (PdfArtifact.ok ["p"]))
      (fun f => none) [] (by decide)).2.2.2⟩

theorem not_mem_rmtree (d p : List String) (fs : List (List String))
    (h : List.isPrefixOf d p = true) : p ∉ rmtree d fs := by
  intro hm
  have hp := (List.mem_filter.mp hm).2
  rw [h] at hp
  simp at hp

/-- C8: on every exit path of a run — normal return (success or
terminal-empty) and fatal error alike — the `finally` block removes the
acquisition directory `temp_downloads` and with it the extraction scratch
directory `temp_downloads/extracted`: neither exists after the run. -/
theorem cleanup_scratch_dirs {α : Type} (aggE : List α → Bool)
    (conv : List String × Nat → Option α) (download : Except String ArchiveBlob)
    (fs0 : List (List String)) :
    temp_dir_path ∉ (mainRun aggE conv download fs0).fsAfter ∧
      extract_dir_path ∉ (mainRun aggE conv download fs0).fsAfter ∧
      (mainRun aggE conv download fs0).cleanupRan = true := by
  have h1 : List.isPrefixOf temp_dir_path temp_dir_path = true := by decide
  have h2 : List.isPrefixOf temp_dir_path extract_dir_path = true := by decide
  cases download with
  | error e => exact ⟨not_mem_rmtree _ _ _ h1, not_mem_rmtree _ _ _ h2, rfl⟩
  | ok blob => exact ⟨not_mem_rmtree _ _ _ h1, not_mem_rmtree _ _ _ h2, rfl⟩

/-- C4 fails on the code: `main` receives no task id, so for any two distinct
task ids the acquisition, extraction and conversion-output directories are the
very same fixed names (`temp_downloads`, `temp_downloads/extracted`,
`extracted_documents`); only the final directory `extract_task` renames after
the run is namespaced by the task id. -/
theorem scratch_dirs_shared (t1 t2 : String) (h : t1 ≠ t2) :
    run_temp_dir t1 = run_temp_dir t2 ∧ run_extract_dir t1 = run_extract_dir t2 ∧
      run_output_dir t1 = run_output_dir t2 ∧ task_final_dir t1 ≠ task_final_dir t2 := by
  refine ⟨rfl, rfl, rfl, ?_⟩
  intro he
  apply h
  have h1 : "extracted_documents_" ++ t1 = "extracted_documents_" ++ t2 := by
    have := he
    simpa [task_final_dir] using this
  have h2 : ("extracted_documents_" ++ t1).data = ("extracted_documents_" ++ t2).data := by
    rw [h1]
  rw [String.data_append, String.data_append] at h2
  exact String.ext (List.append_cancel_left h2)

/-- Witness for C4: two concrete distinct task ids use identical scratch
directory names. -/
theorem scratch_dirs_shared_witness :
    run_temp_dir "t1" = run_temp_dir "t2" ∧ run_extract_dir "t1" = run_extract_dir "t2" ∧
      run_output_dir "t1" = run_output_dir "t2" ∧ task_final_dir "t1" ≠ task_final_dir "t2" :=
  scratch_dirs_shared "t1" "t2" (by decide)

/-- Counterexample for C10: a source already in the target format is passed
through unchanged (`return file_path`), so its artifact path is its full
source path, not `output_dir/<stem>.pdf`, and two same-stem PDFs in different
subdirectories do NOT collide. -/
theorem converted_path_counterexample :
    convert_to_pdf_output ["a", "x.pdf"] ["out"] = some ["a", "x.pdf"] ∧
      convert_to_pdf_output ["a", "x.pdf"] ["out"] ≠
        some (["out"] ++ [pyStem "x.pdf" ++ ".pdf"]) ∧
      convert_to_pdf_output ["a", "x.pdf"] ["out"] ≠
        convert_to_pdf_output ["b", "x.pdf"] ["out"] := by
  decide

/-- C10 as the code has it: for every source file that actually needs
conversion (its extension is not already the target format), the artifact
path is `output_dir/<stem>.pdf` (resp. `.txt`) in the single flat output
directory, determined only by the source basename stem; sources already in
the target format keep their full source path instead.  Consequently two
converted sources with equal stems in different subdirectories map to the
same artifact path: the later conversion overwrites the earlier artifact,
both appends to `converted_files` still happen, and the aggregate reads the
later file's content twice while the earlier content is lost. -/
theorem converted_path_stem_collision :
    (∀ p out r : List String, convert_to_pdf_output p out = some r →
        strToLower (pySuffix (p.getLastD "")) ≠ ".pdf" →
        r = out ++ [pyStem (p.getLastD "") ++ ".pdf"]) ∧
      (∀ p out r : List String, convert_to_text_output p out = some r →
        strToLower (pySuffix (p.getLastD "")) ≠ ".txt" →
        r = out ++ [pyStem (p.getLastD "") ++ ".txt"]) ∧
      (runConversionsPdf ["out"] [(["a", "x.docx"], "c1"), (["b", "x.docx"], "c2")]).2 =
        [["out", "x.pdf"], ["out", "x.pdf"]] ∧
      aggregateReads
          (runConversionsPdf ["out"] [(["a", "x.docx"], "c1"), (["b", "x.docx"], "c2")]) =
        [some "c2", some "c2"] := by
  refine ⟨?_, ?_, by decide, by decide⟩
  · intro p out r hr hne
    simp only [convert_to_pdf_output] at hr
    split at hr
    · next hc => exact absurd hc hne
    · split at hr
      · exact (Option.some.inj hr).symm
      · split at hr
        · exact (Option.some.inj hr).symm
        · split at hr
          · exact (Option.some.inj hr).symm
          · exact Option.noConfusion hr
  · intro p out r hr hne
    simp only [convert_to_text_output] at hr
    split at hr
    · next hc => exact absurd hc hne
    · split at hr
      · exact (Option.some.inj hr).symm
      · split at hr
        · exact (Option.some.inj hr).symm
        · split at hr
          · exact (Option.some.inj hr).symm
          · exact Option.noConfusion hr

/-- Witness for C10 (amended): the collision path for a concrete `.docx`
source is the flat `out/x.pdf` computed from the stem alone. -/
theorem converted_path_stem_collision_witness :
    (["out", "x.pdf"] : List String) = ["out"] ++ [pyStem "x.docx" ++ ".pdf"] :=
  converted_path_stem_collision.1 ["a", "x.docx"] ["out"] ["out", "x.pdf"]
    (by decide) (by decide)
